import Mathlib

/-!
Shallow embedding of `skmultiflow/data/generators/regression_generator.py`
(class `RegressionGenerator`), a stream replayer over a dataset generated
once at construction time by scikit-learn's `make_regression`.

Modelling choices, faithful to the Python/NumPy source:
* matrices are `List (List α)` (rows of samples), entry type `α` abstract
  since the generated values come from the external `make_regression`
  collaborator and are never computed on, only sliced;
* a NumPy basic slice `a[i:j, :]` with `0 ≤ i ≤ j` clamps to the array
  bounds and never raises `IndexError`; it is `(rows.drop i).take (j - i)`.
  Consequently the `except IndexError` branch of `next_instance` is
  unreachable for row slicing and is not a reachable branch of the model;
* `ndarray.resize((size, t))` (in place) zero-pads the flat C-order data
  to `size * t` entries and reshapes it to `size` rows of width `t`;
* the mutable object is a state record; each method is a pure function
  from the state (returning a new state when the Python method mutates).
-/

namespace SkMultiflow

/-- The `current_instance_y` payload: `self.current_instance_y` is a 1-D
array after the `flatten()` branch (fewer than 2 target tasks) and a 2-D
array otherwise. -/
inductive YInstance (α : Type) where
  | flat (v : List α) : YInstance α
  | matrix (m : List (List α)) : YInstance α
deriving DecidableEq

/-- C-order reshape of a flat list into `r` rows of width `t`
(fuel-indexed chunking). -/
def toRows (t : Nat) : Nat → List α → List (List α)
  | 0, _ => []
  | r + 1, l => l.take t :: toRows t r (l.drop t)

/-- `self.y.resize((self.y.size, n_targets))`: in-place NumPy resize of the
flat C-order data to shape `(size, t)` where `size` is the element count;
extra entries (when `t ≥ 2`) are zero-filled. -/
def npResize [Zero α] (flat : List α) (t : Nat) : List (List α) :=
  toRows t flat.length (flat ++ List.replicate (flat.length * t - flat.length) 0)

/-- The fields of a `RegressionGenerator` object. -/
structure RegressionGenerator (α : Type) where
  X : List (List α)
  y : List (List α)
  num_samples : Nat
  num_features : Nat
  num_target_tasks : Nat
  num_informative : Nat
  instance_index : Nat
  current_instance_x : Option (List (List α))
  current_instance_y : Option (YInstance α)
deriving DecidableEq

variable {α : Type}

/-- `__init__` followed by `__configure`: the external `make_regression`
output is passed in as the feature rows `X` and the flat C-order target
data `yFlat` (a vector of length `n_samples` when `n_targets = 1`, the
row-major flattening of an `(n_samples, n_targets)` matrix otherwise);
`__configure` resizes the targets and stores the counts, and `__init__`
has set the cursor to 0 and both last-instance fields to `None`. -/
def mkRegressionGenerator [Zero α] (X : List (List α)) (yFlat : List α)
    (n_samples n_features n_informative n_targets : Nat) : RegressionGenerator α where
  X := X
  y := npResize yFlat n_targets
  num_samples := n_samples
  num_features := n_features
  num_target_tasks := n_targets
  num_informative := n_informative
  instance_index := 0
  current_instance_x := none
  current_instance_y := none

/-- `estimated_remaining_instances`: `num_samples - instance_index`,
a Python `int` that may be negative. -/
def estimated_remaining_instances (s : RegressionGenerator α) : Int :=
  (s.num_samples : Int) - (s.instance_index : Int)

/-- `has_more_instances`: `num_samples - instance_index > 0`. -/
def has_more_instances (s : RegressionGenerator α) : Bool :=
  decide ((s.num_samples : Int) - (s.instance_index : Int) > 0)

/-- `next_instance(batch_size)`: increments `instance_index` by
`batch_size`, then slices rows `[instance_index - batch_size :
instance_index)` of `X` and of `y` (the lower bound is the pre-call
cursor), flattens the target slice when `num_target_tasks < 2`, stores
both slices in the `current_instance_*` fields and returns them. -/
def next_instance (s : RegressionGenerator α) (batch_size : Nat) :
    (Option (List (List α)) × Option (YInstance α)) × RegressionGenerator α :=
  let idx := s.instance_index + batch_size
  let cx := (s.X.drop s.instance_index).take batch_size
  let cyRows := (s.y.drop s.instance_index).take batch_size
  let cy := if s.num_target_tasks < 2 then YInstance.flat cyRows.flatten
            else YInstance.matrix cyRows
  ((some cx, some cy),
   { s with instance_index := idx,
            current_instance_x := some cx,
            current_instance_y := some cy })

/-- `is_restartable`: `True`. -/
def is_restartable (_s : RegressionGenerator α) : Bool := true

/-- `restart`: the body is `pass`; the state is unchanged. -/
def restart (s : RegressionGenerator α) : RegressionGenerator α := s

/-- `get_num_attributes`: `num_features`. -/
def get_num_attributes (s : RegressionGenerator α) : Nat := s.num_features

/-- `get_num_targets`: `num_target_tasks`. -/
def get_num_targets (s : RegressionGenerator α) : Nat := s.num_target_tasks

/-- `get_last_instance`: `(current_instance_x, current_instance_y)`. -/
def get_last_instance (s : RegressionGenerator α) :
    Option (List (List α)) × Option (YInstance α) :=
  (s.current_instance_x, s.current_instance_y)

/-- `get_num_targeting_tasks`: `num_target_tasks`. -/
def get_num_targeting_tasks (s : RegressionGenerator α) : Nat := s.num_target_tasks

/-- Repeated calls `next_instance(1)`: returns the list of the `k`
successive results together with the final state. -/
def replayOnes (s : RegressionGenerator α) :
    Nat → List (Option (List (List α)) × Option (YInstance α)) × RegressionGenerator α
  | 0 => ([], s)
  | k + 1 =>
    ((next_instance s 1).1 :: (replayOnes (next_instance s 1).2 k).1,
     (replayOnes (next_instance s 1).2 k).2)

/-- A concrete generator over `Int` entries used for counterexamples and
witnesses: 2 samples, 1 feature, 1 target task; the external generator
returned feature rows `[[10], [11]]` and target vector `[5, 6]`. -/
def g2 : RegressionGenerator Int := mkRegressionGenerator [[10], [11]] [5, 6] 2 1 1 1

/-- C1: code bug. `restart` has body `pass`, so after exhausting the
2-sample generator `g2` with `next_instance(2)`, calling `restart` leaves
the cursor at 2: `estimated_remaining_instances` is 0 (not the full
sample count 2) and `has_more_instances` is `False` (not `True`), and the
subsequent read resumes past the end instead of replaying the rows. -/
theorem C1_restart_is_noop :
    (restart ((next_instance g2 2).2)).instance_index = 2 ∧
    estimated_remaining_instances (restart ((next_instance g2 2).2)) = 0 ∧
    has_more_instances (restart ((next_instance g2 2).2)) = false ∧
    ((next_instance (restart ((next_instance g2 2).2)) 1).1).1 = some [] := by
  decide

/-- C2: counterexample. On `g2` (2 samples), `next_instance(3)` overruns
the dataset; NumPy slicing truncates instead of raising `IndexError`, so
the call returns the 2 remaining rows and their targets — not the pair of
empty results the claim asserts. -/
theorem C2_counterexample :
    ((next_instance g2 3).1).1 = some [[10], [11]] ∧
    ((next_instance g2 3).1).2 = some (YInstance.flat [5, 6]) ∧
    some [[(10 : Int)], [11]] ≠ some ([] : List (List Int)) := by
  decide

/-- Flattening a list of single-element rows has the same length as the
list of rows. -/
theorem flatten_length_ones (L : List (List α)) (h : ∀ r ∈ L, r.length = 1) :
    L.flatten.length = L.length := by
  induction L with
  | nil => rfl
  | cons r L ih =>
    have hr : r.length = 1 := h r (by simp)
    have ih' := ih (fun x hx => h x (by simp [hx]))
    simp only [List.flatten_cons, List.length_append, List.length_cons, hr, ih']
    omega

/-- A concrete 2-sample, 1-feature, 2-target-task generator over `Int`:
the external generator returned feature rows `[[10], [11]]` and the
target matrix `[[1, 2], [3, 4]]` (flat C-order data `[1, 2, 3, 4]`); the
resize stores it as 4 rows `[[1, 2], [3, 4], [0, 0], [0, 0]]`, the last
two fabricated zero-pad rows. -/
def g22 : RegressionGenerator Int := mkRegressionGenerator [[10], [11]] [1, 2, 3, 4] 2 1 1 2

/-- C2 (amended): when the new cursor position would exceed
`num_samples`, `next_instance` returns the truncated slice of the
remaining feature rows — exactly `num_samples - instance_index` of them,
empty only when the cursor is already at or past the end — not an empty
pair. The target result is the same clamped slice of the *resized*
target matrix: with a single target task (whose resized matrix has
`num_samples` rows of width 1) it is a flattened sequence of exactly the
remaining `num_samples - instance_index` values, while with at least two
target tasks the slice is clamped against the resized matrix's own row
count `num_samples * t`, so it holds `min batch_size (rows - cursor)`
rows and can extend past the real data into the zero-pad rows. -/
theorem C2_overrun_truncates (s : RegressionGenerator α) (b : Nat)
    (hX : s.X.length = s.num_samples)
    (hover : s.num_samples < s.instance_index + b) :
    (((next_instance s b).1).1 = some ((s.X.drop s.instance_index).take b) ∧
      ((s.X.drop s.instance_index).take b).length = s.num_samples - s.instance_index) ∧
    (s.num_target_tasks = 1 → (∀ r ∈ s.y, r.length = 1) → s.y.length = s.num_samples →
      ∃ v, ((next_instance s b).1).2 = some (YInstance.flat v) ∧
        v.length = s.num_samples - s.instance_index) ∧
    (2 ≤ s.num_target_tasks →
      ((next_instance s b).1).2 = some (YInstance.matrix ((s.y.drop s.instance_index).take b)) ∧
      ((s.y.drop s.instance_index).take b).length = min b (s.y.length - s.instance_index)) := by
  refine ⟨⟨rfl, ?_⟩, ?_, ?_⟩
  · simp only [List.length_take, List.length_drop, hX]
    omega
  · intro h1 hrows hylen
    refine ⟨((s.y.drop s.instance_index).take b).flatten, ?_, ?_⟩
    · show some (if s.num_target_tasks < 2
            then YInstance.flat ((s.y.drop s.instance_index).take b).flatten
            else YInstance.matrix ((s.y.drop s.instance_index).take b))
          = some (YInstance.flat ((s.y.drop s.instance_index).take b).flatten)
      rw [if_pos (by omega)]
    · rw [flatten_length_ones _
        (fun r hr => hrows r (List.mem_of_mem_drop (List.mem_of_mem_take hr)))]
      rw [List.length_take, List.length_drop, hylen]
      exact Nat.min_eq_right (by omega)
  · intro h2
    refine ⟨?_, ?_⟩
    · show some (if s.num_target_tasks < 2
            then YInstance.flat ((s.y.drop s.instance_index).take b).flatten
            else YInstance.matrix ((s.y.drop s.instance_index).take b))
          = some (YInstance.matrix ((s.y.drop s.instance_index).take b))
      rw [if_neg (by omega)]
    · rw [List.length_take, List.length_drop]

/-- C2 witness: the amended statement at the overrunning call
`next_instance(3)` on the 2-sample, 2-target generator `g22`: 2 feature
rows come back, while the target slice is clamped against the resized
matrix's 4 rows and so holds `min 3 (4 - 0) = 3` rows, one of them a
zero-pad row past the real data. -/
theorem C2_overrun_truncates_witness :
    ((((next_instance g22 3).1).1 = some ((g22.X.drop g22.instance_index).take 3) ∧
      ((g22.X.drop g22.instance_index).take 3).length = g22.num_samples - g22.instance_index) ∧
     (g22.num_target_tasks = 1 → (∀ r ∈ g22.y, r.length = 1) → g22.y.length = g22.num_samples →
      ∃ v, ((next_instance g22 3).1).2 = some (YInstance.flat v) ∧
        v.length = g22.num_samples - g22.instance_index) ∧
     (2 ≤ g22.num_target_tasks →
      ((next_instance g22 3).1).2 = some (YInstance.matrix ((g22.y.drop g22.instance_index).take 3)) ∧
      ((g22.y.drop g22.instance_index).take 3).length = min 3 (g22.y.length - g22.instance_index))) :=
  C2_overrun_truncates g22 3 (by decide) (by decide)

/-- C3: counterexample. The cursor advances unconditionally, so after
`next_instance(3)` on the 2-sample generator `g2` the cursor is 3 and the
claimed invariant `cursor ≤ total sample count` fails. -/
theorem C3_counterexample :
    ¬ ((next_instance g2 3).2).instance_index ≤ ((next_instance g2 3).2).num_samples := by
  decide

/-- C3 (amended): the cursor is always ≥ 0 but may exceed the sample
count; nevertheless no `next_instance` call returns rows outside the
dataset: the returned feature slice consists of the dataset rows at
indices `instance_index + k` for `k` below the slice length, all of which
are valid indices of `X` (hence in `[0, row count)`). -/
theorem C3_rows_in_range (s : RegressionGenerator α) (b k : Nat)
    (hk : k < ((s.X.drop s.instance_index).take b).length) :
    (0 : Int) ≤ (((next_instance s b).2).instance_index : Int) ∧
    ((next_instance s b).1).1 = some ((s.X.drop s.instance_index).take b) ∧
    ∃ h : s.instance_index + k < s.X.length,
      ((s.X.drop s.instance_index).take b).get ⟨k, hk⟩
        = s.X.get ⟨s.instance_index + k, h⟩ := by
  have hlen : s.instance_index + k < s.X.length := by
    simp only [List.length_take, List.length_drop] at hk
    omega
  refine ⟨Int.ofNat_nonneg _, rfl, hlen, ?_⟩
  simp [List.get_eq_getElem, List.getElem_take, List.getElem_drop]

/-- C3 witness: the amended statement at the concrete generator `g2`
with batch size 1 and row offset 0. -/
theorem C3_rows_in_range_witness :
    (0 : Int) ≤ (((next_instance g2 1).2).instance_index : Int) ∧
    ((next_instance g2 1).1).1 = some ((g2.X.drop g2.instance_index).take 1) ∧
    ∃ h : g2.instance_index + 0 < g2.X.length,
      ((g2.X.drop g2.instance_index).take 1).get ⟨0, by decide⟩
        = g2.X.get ⟨g2.instance_index + 0, h⟩ :=
  C3_rows_in_range g2 1 0 (by decide)

/-- C7: `estimated_remaining_instances` equals `num_samples` minus the
cursor and is a pure function of the state (no side effects);
`has_more_instances` is `True` iff it is positive; and it decreases by
exactly `batch_size` across any `next_instance` call (in particular any
successful one). -/
theorem C7_remaining_count (s : RegressionGenerator α) (batch_size : Nat) :
    estimated_remaining_instances s = (s.num_samples : Int) - (s.instance_index : Int) ∧
    (has_more_instances s = true ↔ 0 < estimated_remaining_instances s) ∧
    estimated_remaining_instances ((next_instance s batch_size).2)
      = estimated_remaining_instances s - (batch_size : Int) := by
  refine ⟨rfl, ?_, ?_⟩
  · simp [has_more_instances, estimated_remaining_instances]
  · simp only [estimated_remaining_instances, next_instance]
    push_cast
    ring

/-- C4: `next_instance` advances the cursor by exactly `batch_size`,
unconditionally: the new `instance_index` is the old one plus
`batch_size`, whether or not the request exceeds the dataset. -/
theorem C4_cursor_advances_unconditionally (s : RegressionGenerator α) (batch_size : Nat) :
    ((next_instance s batch_size).2).instance_index = s.instance_index + batch_size := rfl

/-- C8: `get_last_instance` returns exactly the pair produced by the most
recent `next_instance` call, and `next_instance` leaves the dataset
matrices and all counts unchanged: only the cursor and the two
last-instance fields differ between the pre- and post-call states.
`get_last_instance` itself is a pure function of the state, so it has no
side effects. -/
theorem C8_last_instance_and_frame (s : RegressionGenerator α) (batch_size : Nat) :
    get_last_instance ((next_instance s batch_size).2) = (next_instance s batch_size).1 ∧
    ((next_instance s batch_size).2).X = s.X ∧
    ((next_instance s batch_size).2).y = s.y ∧
    ((next_instance s batch_size).2).num_samples = s.num_samples ∧
    ((next_instance s batch_size).2).num_features = s.num_features ∧
    ((next_instance s batch_size).2).num_target_tasks = s.num_target_tasks ∧
    ((next_instance s batch_size).2).num_informative = s.num_informative :=
  ⟨rfl, rfl, rfl, rfl, rfl, rfl, rfl⟩

/-- C9: for every construction with requested feature count
`n_features` and target count `n_targets`, `get_num_attributes` returns
`n_features` and `get_num_targets` returns `n_targets`, and neither is
changed by any `next_instance` or `restart` call. -/
theorem C9_counts_fixed [Zero α] (X : List (List α)) (yFlat : List α)
    (n_samples n_features n_informative n_targets batch_size : Nat) :
    get_num_attributes (mkRegressionGenerator X yFlat n_samples n_features n_informative n_targets) = n_features ∧
    get_num_targets (mkRegressionGenerator X yFlat n_samples n_features n_informative n_targets) = n_targets ∧
    (∀ s : RegressionGenerator α,
      get_num_attributes ((next_instance s batch_size).2) = get_num_attributes s ∧
      get_num_targets ((next_instance s batch_size).2) = get_num_targets s ∧
      get_num_attributes (restart s) = get_num_attributes s ∧
      get_num_targets (restart s) = get_num_targets s) :=
  ⟨rfl, rfl, fun _ => ⟨rfl, rfl, rfl, rfl⟩⟩

/-- The final state of `replayOnes` has the cursor advanced by `k` and
the sample count unchanged. -/
theorem replayOnes_state (k : Nat) (s : RegressionGenerator α) :
    ((replayOnes s k).2).instance_index = s.instance_index + k ∧
    ((replayOnes s k).2).num_samples = s.num_samples := by
  induction k generalizing s with
  | zero => exact ⟨rfl, rfl⟩
  | succ k ih =>
    rcases ih ((next_instance s 1).2) with ⟨h1, h2⟩
    refine ⟨?_, h2⟩
    rw [replayOnes, h1]
    show s.instance_index + 1 + k = s.instance_index + (k + 1)
    omega

/-- The feature components of `k` in-range `next_instance(1)` calls are
exactly the singleton batches of the next `k` rows of `X`, in order. -/
theorem replayOnes_fst (k : Nat) (s : RegressionGenerator α)
    (hk : s.instance_index + k ≤ s.X.length) :
    (((replayOnes s k).1).map Prod.fst)
      = ((s.X.drop s.instance_index).take k).map (fun r => some [r]) := by
  induction k generalizing s with
  | zero => simp [replayOnes]
  | succ k ih =>
    have hi : s.instance_index < s.X.length := by omega
    have ih' := ih ((next_instance s 1).2)
      (by show s.instance_index + 1 + k ≤ s.X.length; omega)
    have hhead : (s.X.drop s.instance_index).take 1 = [s.X[s.instance_index]] := by
      rw [List.drop_eq_getElem_cons hi]
      rfl
    rw [replayOnes, List.map_cons, ih']
    show some ((s.X.drop s.instance_index).take 1)
        :: List.map (fun r => some [r]) (List.take k (List.drop (s.instance_index + 1) s.X))
      = List.map (fun r => some [r]) (List.take (k + 1) (List.drop s.instance_index s.X))
    rw [hhead, List.drop_eq_getElem_cons hi]
    rfl

/-- The target components of `k` in-range `next_instance(1)` calls, when
`num_target_tasks < 2`, are exactly the flattened single rows of `y`, in
order. -/
theorem replayOnes_snd (k : Nat) (s : RegressionGenerator α)
    (ht : s.num_target_tasks < 2)
    (hk : s.instance_index + k ≤ s.y.length) :
    (((replayOnes s k).1).map Prod.snd)
      = ((s.y.drop s.instance_index).take k).map (fun r => some (YInstance.flat r)) := by
  induction k generalizing s with
  | zero => simp [replayOnes]
  | succ k ih =>
    have hi : s.instance_index < s.y.length := by omega
    have ih' := ih ((next_instance s 1).2) ht
      (by show s.instance_index + 1 + k ≤ s.y.length; omega)
    have hsnd : ((next_instance s 1).1).2
        = some (YInstance.flat ((s.y.drop s.instance_index).take 1).flatten) := by
      show some (if s.num_target_tasks < 2
            then YInstance.flat ((s.y.drop s.instance_index).take 1).flatten
            else YInstance.matrix ((s.y.drop s.instance_index).take 1)) = _
      rw [if_pos ht]
    have hhead : ((s.y.drop s.instance_index).take 1).flatten = s.y[s.instance_index] := by
      rw [List.drop_eq_getElem_cons hi]
      show s.y[s.instance_index] ++ [] = s.y[s.instance_index]
      exact List.append_nil _
    rw [replayOnes, List.map_cons, ih']
    show ((next_instance s 1).1).2
        :: List.map (fun r => some (YInstance.flat r))
             (List.take k (List.drop (s.instance_index + 1) s.y))
      = List.map (fun r => some (YInstance.flat r))
          (List.take (k + 1) (List.drop s.instance_index s.y))
    rw [hsnd, hhead, List.drop_eq_getElem_cons hi]
    rfl

/-- Chunking a flat list of exactly `l.length` singleton rows of width 1
recovers the list of singletons. -/
theorem toRows_one (l : List α) : toRows 1 l.length l = l.map (fun a => [a]) := by
  induction l with
  | nil => rfl
  | cons a l ih => simp [toRows, ih]

/-- With a single target task the NumPy resize is the identity reshape:
each flat entry becomes its own row. -/
theorem npResize_one [Zero α] (flat : List α) :
    npResize flat 1 = flat.map (fun a => [a]) := by
  have h : flat.length * 1 - flat.length = 0 := by omega
  rw [npResize, h]
  simpa using toRows_one flat

/-- C5: for any construction with `n` samples (the external generator
returned `n` feature rows), calling `next_instance(1)` exactly `n` times
returns every feature row exactly once, as singleton batches in original
generation order, after which `has_more_instances` is `False`; with a
single target task (where the generator returned `n` target values) the
calls likewise return every target value exactly once, flattened, in
order. -/
theorem C5_replay_visits_every_row [Zero α] (X : List (List α)) (yFlat : List α)
    (n n_features n_informative n_targets : Nat) (hX : X.length = n) :
    (((replayOnes (mkRegressionGenerator X yFlat n n_features n_informative n_targets) n).1).map Prod.fst
        = X.map (fun r => some [r])) ∧
    has_more_instances ((replayOnes (mkRegressionGenerator X yFlat n n_features n_informative n_targets) n).2)
        = false ∧
    (n_targets = 1 → yFlat.length = n →
      ((replayOnes (mkRegressionGenerator X yFlat n n_features n_informative n_targets) n).1).map Prod.snd
        = yFlat.map (fun a => some (YInstance.flat [a]))) := by
  refine ⟨?_, ?_, ?_⟩
  · have h := replayOnes_fst n (mkRegressionGenerator X yFlat n n_features n_informative n_targets)
      (by show 0 + n ≤ X.length; omega)
    rw [h]
    show List.map (fun r => some [r]) ((X.drop 0).take n) = _
    rw [List.drop_zero, ← hX, List.take_length]
  · rcases replayOnes_state n (mkRegressionGenerator X yFlat n n_features n_informative n_targets) with ⟨h1, h2⟩
    show decide ((((replayOnes (mkRegressionGenerator X yFlat n n_features n_informative n_targets) n).2).num_samples : Int)
        - (((replayOnes (mkRegressionGenerator X yFlat n n_features n_informative n_targets) n).2).instance_index : Int) > 0) = false
    rw [h1, h2]
    show decide ((n : Int) - ((0 + n : Nat) : Int) > 0) = false
    simp
  · intro ht hy
    subst ht
    have hylen : (npResize yFlat 1 : List (List α)).length = n := by
      rw [npResize_one, List.length_map, hy]
    have h := replayOnes_snd n (mkRegressionGenerator X yFlat n n_features n_informative 1)
      (Nat.one_lt_two) (by show 0 + n ≤ (npResize yFlat 1).length; omega)
    rw [h]
    show List.map (fun r => some (YInstance.flat r)) (((npResize yFlat 1 : List (List α)).drop 0).take n) = _
    rw [List.drop_zero, ← hylen, List.take_length, npResize_one, List.map_map]
    rfl

/-- C5 witness: the replay property at the concrete 2-sample,
single-target construction behind `g2`. -/
theorem C5_replay_witness :
    (((replayOnes (mkRegressionGenerator [[(10 : Int)], [11]] [5, 6] 2 1 1 1) 2).1).map Prod.fst
        = [[(10 : Int)], [11]].map (fun r => some [r])) ∧
    has_more_instances ((replayOnes (mkRegressionGenerator [[(10 : Int)], [11]] [5, 6] 2 1 1 1) 2).2)
        = false ∧
    (1 = 1 → ([(5 : Int), 6] : List Int).length = 2 →
      ((replayOnes (mkRegressionGenerator [[(10 : Int)], [11]] [5, 6] 2 1 1 1) 2).1).map Prod.snd
        = [(5 : Int), 6].map (fun a => some (YInstance.flat [a]))) :=
  C5_replay_visits_every_row [[(10 : Int)], [11]] [5, 6] 2 1 1 1 rfl

/-- Every row of the resized target matrix has width `n_targets`. -/
theorem toRows_row_length (t fuel : Nat) (l : List α) (hfuel : fuel * t ≤ l.length) :
    ∀ r ∈ toRows t fuel l, r.length = t := by
  induction fuel generalizing l with
  | zero => intro r hr; simp [toRows] at hr
  | succ fuel ih =>
    rw [Nat.succ_mul] at hfuel
    intro r hr
    rw [toRows, List.mem_cons] at hr
    rcases hr with hr | hr
    · subst hr
      rw [List.length_take]
      exact Nat.min_eq_left (by omega)
    · exact ih (l.drop t) (by rw [List.length_drop]; omega) r hr

/-- The stored target matrix of a construction has rows of width
`n_targets`: the resize pads the flat data and chunks it into rows of
exactly that width. -/
theorem mk_y_row_length [Zero α] (X : List (List α)) (yFlat : List α)
    (n_samples n_features n_informative n_targets : Nat) :
    ∀ r ∈ (mkRegressionGenerator X yFlat n_samples n_features n_informative n_targets : RegressionGenerator α).y,
      r.length = n_targets := by
  apply toRows_row_length
  rw [List.length_append, List.length_replicate]
  rcases Nat.eq_zero_or_pos n_targets with h0 | hpos
  · subst h0; simp
  · have : yFlat.length ≤ yFlat.length * n_targets := Nat.le_mul_of_pos_right _ hpos
    omega

/-- C6: for every in-range `next_instance(batch_size)` call on a state
whose stored target rows all have width `num_target_tasks` (as every
construction guarantees): with a single target task the returned target
slice is a flattened 1-D sequence of length `batch_size`, and with at
least two target tasks it is a 2-D block of `batch_size` rows, each of
width `num_target_tasks`. -/
theorem C6_target_shape (s : RegressionGenerator α) (batch_size : Nat)
    (hrows : ∀ r ∈ s.y, r.length = s.num_target_tasks)
    (hin : s.instance_index + batch_size ≤ s.num_samples)
    (hny : s.num_samples ≤ s.y.length) :
    (s.num_target_tasks = 1 →
      ∃ v, ((next_instance s batch_size).1).2 = some (YInstance.flat v) ∧
        v.length = batch_size) ∧
    (2 ≤ s.num_target_tasks →
      ∃ m, ((next_instance s batch_size).1).2 = some (YInstance.matrix m) ∧
        m.length = batch_size ∧ ∀ r ∈ m, r.length = s.num_target_tasks) := by
  have hlen : ((s.y.drop s.instance_index).take batch_size).length = batch_size := by
    rw [List.length_take, List.length_drop]
    exact Nat.min_eq_left (by omega)
  have hmem : ∀ r ∈ (s.y.drop s.instance_index).take batch_size, r ∈ s.y :=
    fun r hr => List.mem_of_mem_drop (List.mem_of_mem_take hr)
  constructor
  · intro h1
    refine ⟨((s.y.drop s.instance_index).take batch_size).flatten, ?_, ?_⟩
    · show some (if s.num_target_tasks < 2
            then YInstance.flat ((s.y.drop s.instance_index).take batch_size).flatten
            else YInstance.matrix ((s.y.drop s.instance_index).take batch_size))
          = some (YInstance.flat ((s.y.drop s.instance_index).take batch_size).flatten)
      rw [if_pos (by omega)]
    · rw [flatten_length_ones _ (fun r hr => by rw [hrows r (hmem r hr), h1]), hlen]
  · intro h2
    refine ⟨(s.y.drop s.instance_index).take batch_size, ?_, hlen, ?_⟩
    · show some (if s.num_target_tasks < 2
            then YInstance.flat ((s.y.drop s.instance_index).take batch_size).flatten
            else YInstance.matrix ((s.y.drop s.instance_index).take batch_size))
          = some (YInstance.matrix ((s.y.drop s.instance_index).take batch_size))
      rw [if_neg (by omega)]
    · exact fun r hr => hrows r (hmem r hr)

/-- C6 witness: the target-shape property at the concrete single-target
generator `g2` with batch size 1. -/
theorem C6_target_shape_witness :
    (g2.num_target_tasks = 1 →
      ∃ v, ((next_instance g2 1).1).2 = some (YInstance.flat v) ∧ v.length = 1) ∧
    (2 ≤ g2.num_target_tasks →
      ∃ m, ((next_instance g2 1).1).2 = some (YInstance.matrix m) ∧
        m.length = 1 ∧ ∀ r ∈ m, r.length = g2.num_target_tasks) :=
  C6_target_shape g2 1 (by decide) (by decide) (by decide)

/-- C10: immediately after construction, before any `next_instance`
call, `get_last_instance` returns the pair `(None, None)`. -/
theorem C10_last_instance_initially_none [Zero α] (X : List (List α)) (yFlat : List α)
    (n_samples n_features n_informative n_targets : Nat) :
    get_last_instance (mkRegressionGenerator X yFlat n_samples n_features n_informative n_targets)
      = ((none : Option (List (List α))), (none : Option (YInstance α))) := rfl

end SkMultiflow
